import Mathlib

/-!
Verification of the address-extraction + caching + orchestration pipeline of the
rugpull-sniff repository.

The Python source is embedded shallowly:

* `utils/ca_parser.py` (`CAParser`) — pure string processing, embedded over
  `List Char`.  Python `re.split(r'[\s,;:.!?\n\r]+', text)` is embedded by
  `splitSeps`, `re.findall('[BASE58]{32,44}', text)` by `findallB58`
  (maximal alphabet runs, greedily chunked, exactly as the regex engine
  matches a single greedy character-class quantifier).
* `utils/cache.py` (`CacheManager`) — the cache directory is embedded as an
  association list from file path to (content, mtime); `time.time()` values
  are integers passed explicitly; `json.dumps`/`json.loads` are embedded as
  the `JsonBlob` codec (dumping a serializable value always yields a blob
  that loads back to the same value; a `corrupt` blob is a file whose text
  is not valid JSON).  OS-level read/write failures (which the code maps to
  a miss / a `False` result) are outside the model.
* `src/rugpull_agent/solsniffer_service.py` (`analyze_token`) — the outcome
  of the single outbound HTTP call is a parameter (`FetchOutcome`); the
  `try/except` dispatch is embedded including the Python rule that an
  `except` clause naming a non-exception class raises `TypeError` when it is
  evaluated, uncatchable by later clauses of the same `try`.
* `src/rugpull_agent/agent.py` (`assist`, `_process_token_analysis`,
  `_is_greeting`, `_handle_greeting`, `_handle_normal_chat`) — the emitted
  event sequence is embedded as a trace (`List Step`) recording text-block
  emissions, the completion signal, cache reads/writes and gateway calls.
  The LLM gateway (`llm_service.py`) catches every exception internally and
  always returns a string, so its outcome is the string `llmText` in the
  environment; emission primitives and logging are assumed not to fail.
  Unexpected exceptions in the pipeline itself are injected through
  `AgentEnv.excAt`.

Python whitespace for `str.strip`/`\s` is embedded as the six ASCII
whitespace characters; non-ASCII Unicode whitespace is irrelevant to every
claim (all inputs involved are drawn from the base58 alphabet plus ASCII
separators).
-/

namespace RugPull

/-! ### utils/ca_parser.py -/

/-- Base58 alphabet (excludes 0, O, I, l to avoid confusion). -/
def BASE58_ALPHABET : List Char :=
  "123456789ABCDEFGHJKLMNPQRSTUVWXYZabcdefghijkmnopqrstuvwxyz".data

/-- Solana addresses are 32-44 characters of base58. -/
def MIN_LENGTH : Nat := 32

def MAX_LENGTH : Nat := 44

/-- Membership of a character in the base58 alphabet (`char in BASE58_ALPHABET`). -/
def isB58 (c : Char) : Bool := decide (c ∈ BASE58_ALPHABET)

/-- ASCII whitespace as stripped by Python `str.strip()` and matched by `\s`. -/
def pySpace (c : Char) : Bool := decide (c ∈ [' ', '\t', '\n', '\r', '\x0b', '\x0c'])

/-- A character of the separator class `[\s,;:.!?\n\r]` used by `re.split`. -/
def isSepChar (c : Char) : Bool := pySpace c || decide (c ∈ [',', ';', ':', '.', '!', '?'])

/-- Python `str.strip()`. -/
def pyStrip (cs : List Char) : List Char :=
  ((cs.dropWhile pySpace).reverse.dropWhile pySpace).reverse

/-- `re.split(r'[\s,;:.!?\n\r]+', text)`: split at maximal nonempty runs of
separator characters; a leading (trailing) run yields a leading (trailing)
empty field. -/
def splitSeps : List Char → List (List Char)
  | [] => [[]]
  | c :: rest =>
    if isSepChar c then
      match rest with
      | [] => [[], []]
      | r :: _ => if isSepChar r then splitSeps rest else [] :: splitSeps rest
    else
      match splitSeps rest with
      | w :: ws => (c :: w) :: ws
      | [] => [[c]]

/-- `CAParser.is_valid_solana_address`: nonempty, length in [32,44], and every
character in the base58 alphabet.  (The source has no further check.) -/
def is_valid_solana_address (address : List Char) : Bool :=
  if address = [] then false
  else if MIN_LENGTH ≤ address.length ∧ address.length ≤ MAX_LENGTH then
    address.all isB58
  else false

/-- The word loop of `extract_contract_address`: strip each word, quick length
check, then full validity check; return the first pass. -/
def findWord : List (List Char) → Option (List Char)
  | [] => none
  | w :: ws =>
    let w2 := pyStrip w
    if MIN_LENGTH ≤ w2.length ∧ w2.length ≤ MAX_LENGTH then
      if is_valid_solana_address w2 then some w2 else findWord ws
    else findWord ws

/-- Maximal contiguous runs of base58 characters: `acc` is the run being
scanned, in reverse. -/
def base58RunsAux : List Char → List Char → List (List Char)
  | [], acc => if acc.isEmpty then [] else [acc.reverse]
  | c :: rest, acc =>
    if isB58 c then base58RunsAux rest (c :: acc)
    else if acc.isEmpty then base58RunsAux rest []
    else acc.reverse :: base58RunsAux rest []

/-- Maximal contiguous runs of base58 characters in the text. -/
def base58Runs (text : List Char) : List (List Char) := base58RunsAux text []

/-- How the greedy quantifier `{32,44}` consumes one maximal run: repeatedly
take (at most) 44 characters; a final piece shorter than 32 yields no match.
The fuel argument only bounds the recursion; `run.length` is always enough. -/
def chunkRunF : Nat → List Char → List (List Char)
  | 0, _ => []
  | fuel + 1, run =>
    if run.length < MIN_LENGTH then []
    else run.take MAX_LENGTH :: chunkRunF fuel (run.drop MAX_LENGTH)

def chunkRun (run : List Char) : List (List Char) := chunkRunF run.length run

/-- `re.findall('[BASE58]{32,44}', text)`. -/
def findallB58 (text : List Char) : List (List Char) :=
  ((base58Runs text).map chunkRun).flatten

/-- The fallback loop of `extract_contract_address`: first regex match passing
the validity check. -/
def findMatch : List (List Char) → Option (List Char)
  | [] => none
  | m :: ms => if is_valid_solana_address m then some m else findMatch ms

/-- `CAParser.extract_contract_address`. -/
def extract_contract_address (text : List Char) : Option (List Char) :=
  if text = [] then none
  else
    let t := pyStrip text
    match findWord (splitSeps t) with
    | some w => some w
    | none => findMatch (findallB58 t)

/-- The first loop of `extract_all_addresses`: append every valid (stripped)
word to `addresses`, without deduplication. -/
def wordPass : List (List Char) → List (List Char) → List (List Char)
  | [], addresses => addresses
  | w :: ws, addresses =>
    let w2 := pyStrip w
    wordPass ws (if is_valid_solana_address w2 then addresses ++ [w2] else addresses)

/-- The second loop of `extract_all_addresses`: append every valid regex match
not already present in `addresses`. -/
def regexPass : List (List Char) → List (List Char) → List (List Char)
  | [], addresses => addresses
  | m :: ms, addresses =>
    regexPass ms
      (if is_valid_solana_address m && !(addresses.contains m) then addresses ++ [m]
       else addresses)

/-- `CAParser.extract_all_addresses`. -/
def extract_all_addresses (text : List Char) : List (List Char) :=
  if text = [] then []
  else regexPass (findallB58 text) (wordPass (splitSeps text) [])

/-- `CAParser.has_contract_address`. -/
def has_contract_address (text : List Char) : Bool :=
  (extract_contract_address text).isSome

/-! ### utils/cache.py -/

/-- The text content of one cache file, as seen through the `json` codec:
`json.dumps` of a serializable value always produces a well-formed document,
and `json.loads` recovers exactly that value; a `corrupt` blob is a file whose
text is not valid JSON (its `json.loads` raises, which `CacheManager.get`
turns into a miss). -/
inductive JsonBlob (α : Type) where
  | wellFormed (v : α)
  | corrupt

/-- `json.loads` on a cache file body. -/
def loads {α : Type} : JsonBlob α → Option α
  | .wellFormed v => some v
  | .corrupt => none

/-- The cache directory: an association list from file path to
(file content, mtime).  `time.time()` / `st_mtime` values are integers. -/
abbrev CacheFS (α : Type) := List (String × JsonBlob α × Int)

def fsLookup {α : Type} : CacheFS α → String → Option (JsonBlob α × Int)
  | [], _ => none
  | (p, b, t) :: rest, q => if p = q then some (b, t) else fsLookup rest q

/-- `Path.unlink`. -/
def fsErase {α : Type} (fs : CacheFS α) (p : String) : CacheFS α :=
  fs.filter (fun e => e.1 != p)

/-- `Path.write_text`: whole-entry replacement; the file mtime becomes the
write time. -/
def fsWrite {α : Type} (fs : CacheFS α) (p : String) (b : JsonBlob α) (t : Int) : CacheFS α :=
  (p, b, t) :: fsErase fs p

/-- `CacheManager`: `hashKey` models `hashlib.sha256(key.encode()).hexdigest()`
(an arbitrary string-to-storage-identifier map; no property of it is needed by
any theorem), `ttl_seconds` is `ttl_hours * 3600`. -/
structure CacheManager where
  hashKey : String → String
  ttl_seconds : Int

/-- `CacheManager.__init__` from `ttl_hours`. -/
def CacheManager.init (hashKey : String → String) (ttl_hours : Int) : CacheManager :=
  ⟨hashKey, ttl_hours * 3600⟩

/-- `CacheManager._get_cache_path`. -/
def CacheManager.cachePath (m : CacheManager) (key : String) : String :=
  m.hashKey key ++ ".json"

/-- `CacheManager.get`: miss on absent file; if `now - mtime > ttl_seconds`
delete the file and return `None` (before any parse attempt); otherwise
`json.loads` the body, a parse failure being caught and returned as `None`.
Returns the value and the cache directory afterwards. -/
def CacheManager.get {α : Type} (m : CacheManager) (fs : CacheFS α) (now : Int)
    (key : String) : Option α × CacheFS α :=
  let path := m.cachePath key
  match fsLookup fs path with
  | none => (none, fs)
  | some (blob, mtime) =>
    if now - mtime > m.ttl_seconds then (none, fsErase fs path)
    else
      match loads blob with
      | some v => (some v, fs)
      | none => (none, fs)

/-- `CacheManager.set`: serialize and write; in the model the write succeeds
(OS write errors, which the code maps to `False`, are outside the model). -/
def CacheManager.set {α : Type} (m : CacheManager) (fs : CacheFS α) (now : Int)
    (key : String) (value : α) : Bool × CacheFS α :=
  (true, fsWrite fs (m.cachePath key) (JsonBlob.wellFormed value) now)

/-- `CacheManager.delete`. -/
def CacheManager.delete {α : Type} (m : CacheManager) (fs : CacheFS α)
    (key : String) : Bool × CacheFS α :=
  match fsLookup fs (m.cachePath key) with
  | some _ => (true, fsErase fs (m.cachePath key))
  | none => (false, fs)

/-! ### JSON documents (the loosely-typed payloads moved around by the agent) -/

/-- A parsed JSON document as Python's `json.loads` produces it
(numbers restricted to integers; floats play no role in any claim). -/
inductive Json where
  | null
  | bool (b : Bool)
  | num (n : Int)
  | str (s : String)
  | arr (elems : List Json)
  | obj (fields : List (String × Json))

/-- Python truthiness (`if value:`). -/
def truthy : Json → Bool
  | .null => false
  | .bool b => b
  | .num n => n != 0
  | .str s => !s.isEmpty
  | .arr xs => !xs.isEmpty
  | .obj kvs => !kvs.isEmpty

/-- The Python type name, as it appears in an `AttributeError` message. -/
def pyTypeName : Json → String
  | .null => "NoneType"
  | .bool _ => "bool"
  | .num _ => "int"
  | .str _ => "str"
  | .arr _ => "list"
  | .obj _ => "dict"

mutual

/-- Python `repr` of a parsed JSON document (string-escaping subtleties
elided: strings are wrapped in single quotes verbatim). -/
def pyRepr : Json → String
  | .null => "None"
  | .bool true => "True"
  | .bool false => "False"
  | .num n => toString n
  | .str s => "\x27" ++ s ++ "\x27"
  | .arr xs => "[" ++ String.intercalate ", " (pyReprList xs) ++ "]"
  | .obj kvs => "\x7b" ++ String.intercalate ", " (pyReprFields kvs) ++ "\x7d"

def pyReprList : List Json → List String
  | [] => []
  | x :: xs => pyRepr x :: pyReprList xs

def pyReprFields : List (String × Json) → List String
  | [] => []
  | (k, v) :: kvs => ("\x27" ++ k ++ "\x27: " ++ pyRepr v) :: pyReprFields kvs

end

/-- Python `str` (as applied by an f-string): a string renders as itself,
everything else as its `repr`. -/
def pyStr : Json → String
  | .str s => s
  | j => pyRepr j

/-- `d.get(k, default)` on a dict. -/
def dictGet (kvs : List (String × Json)) (k : String) (dflt : Json) : Json :=
  (kvs.lookup k).getD dflt

/-- `k in d` on a dict. -/
def hasKey (kvs : List (String × Json)) (k : String) : Bool :=
  (kvs.lookup k).isSome

/-! ### src/rugpull_agent/solsniffer_service.py -/

/-- Exceptions that matter to the embedded control flow. -/
inductive PyExc where
  | typeError

/-- `str(e)` for the modelled exceptions. -/
def pyExcMsg : PyExc → String
  | .typeError => "catching classes that do not inherit from BaseException is not allowed"

/-- Outcome of the single outbound `GET` to the scanning service.
`resp status body` is a received HTTP response, `body` being the result of
`response.json()` (`.error msg` when the body is not valid JSON; a parsed
body is taken to be object-rooted, as the remote API's JSON is).
The remaining constructors are exceptions raised by the call:
`aiohttp.ClientConnectionError`, `asyncio.TimeoutError` (the configured
`ClientTimeout(total=...)` elapsed), or any other exception. -/
inductive FetchOutcome where
  | resp (status : Nat) (body : Except String (List (String × Json)))
  | connectionError
  | timeoutError
  | otherException (msg : String)

def notFoundDict (ca : String) : List (String × Json) :=
  [("error", .str "Token not found"),
   ("contract_address", .str ca),
   ("message", .str "This contract address was not found. Please verify the address is correct.")]

def rateLimitDict (ca : String) : List (String × Json) :=
  [("error", .str "Rate limit"),
   ("contract_address", .str ca),
   ("message", .str "API rate limit exceeded. Please try again later.")]

def apiErrorDict (ca : String) (status : Nat) : List (String × Json) :=
  [("error", .str "API error"),
   ("contract_address", .str ca),
   ("message", .str ("The SolSniffer API returned an error (Status: " ++ toString status ++ ")"))]

def parseErrorDict (ca : String) (msg : String) : List (String × Json) :=
  [("error", .str "Parse error"),
   ("contract_address", .str ca),
   ("message", .str ("Failed to parse API response: " ++ msg))]

def connectionErrorDict (ca : String) : List (String × Json) :=
  [("error", .str "Connection error"),
   ("contract_address", .str ca),
   ("message", .str "Could not connect to SolSniffer API. Please check your internet connection.")]

/-- The dict the `except aiohttp.ClientTimeout` handler body would return. -/
def timeoutDict (ca : String) : List (String × Json) :=
  [("error", .str "Timeout"),
   ("contract_address", .str ca),
   ("message", .str "The API request timed out. Please try again.")]

/-- `SolSnifferService.analyze_token`.  A normal return is `.ok dict`; a
propagated exception is `.error e`.

The status dispatch follows the source: 200 (with an inner `try` around
`response.json()`), 404, 429, then any other status.

The exception dispatch follows Python semantics for the source's
`try/except` chain: `aiohttp.ClientConnectionError` is caught and classified;
for every other exception the interpreter next evaluates the clause
`except aiohttp.ClientTimeout` — but `aiohttp.ClientTimeout` is the timeout
*configuration* class (used as such at the top of the same function), not a
`BaseException` subclass, so evaluating that clause raises
`TypeError("catching classes that do not inherit from BaseException is not
allowed")`, which the later `except Exception` clause of the same `try`
statement cannot catch.  Hence neither the `Timeout` nor the
`Unexpected error` handler body is reachable. -/
def analyzeToken (outcome : FetchOutcome) (ca : String) :
    Except PyExc (List (String × Json)) :=
  match outcome with
  | .resp status body =>
    if status = 200 then
      match body with
      | .ok kvs => .ok kvs
      | .error msg => .ok (parseErrorDict ca msg)
    else if status = 404 then .ok (notFoundDict ca)
    else if status = 429 then .ok (rateLimitDict ca)
    else .ok (apiErrorDict ca status)
  | .connectionError => .ok (connectionErrorDict ca)
  | .timeoutError => .error .typeError
  | .otherException _ => .error .typeError

/-! ### src/rugpull_agent/agent.py -/

/-- An event pushed to the response handler: a named text block
(`emit_text_block`) or the completion signal (`complete`). -/
inductive Event where
  | block (name : String) (content : String)
  | done
deriving DecidableEq

/-- One step of the observable behaviour of the agent: an emitted event, a
cache read/write, or a call to one of the two gateways. -/
inductive Step where
  | ev (e : Event)
  | cacheGet (key : String)
  | cacheSet (key : String) (value : Json)
  | fetchReport (ca : String)
  | advise (ca : String)

/-- Where an injected unexpected exception is raised: inside `assist` before
dispatch (caught by `assist`'s own handler), or at the start of
`_process_token_analysis` (caught by that method's handler). -/
inductive ExcPoint where
  | duringAssist
  | duringProcess
deriving DecidableEq

/-- Outcome of the direct LLM HTTP call made by `_handle_normal_chat`. -/
inductive ChatOutcome where
  | ok (content : String)
  | httpError (status : Nat) (body : String)
  | exception (msg : String)

/-- The environment of one `assist` call: the wall clock, the cache
configuration (`None` when `ENABLE_CACHE` is off), the outcomes of the
outbound calls, and an optionally injected unexpected exception. -/
structure AgentEnv where
  now : Int
  cacheEnabled : Bool
  mgr : CacheManager
  fetchOutcome : FetchOutcome
  llmText : String
  chatOutcome : ChatOutcome
  excAt : Option ExcPoint
  excMsg : String

def cacheKeyFor (ca : String) : String := "token_analysis_" ++ ca

def cachedMarker : String := "✨ **[Cached Analysis]**\n\n"

/-- `ca[:8]` / `ca[-8:]`. -/
def pyTake8 (s : String) : String := s.take 8

def pyLast8 (s : String) : String := s.drop (s.length - 8)

def statusAnalyzing (ca : String) : String :=
  "🔍 **Analyzing Token**\n\n`" ++ pyTake8 ca ++ "..." ++ pyLast8 ca ++ "`\n\nFetching data..."

def statusProcessing : String :=
  "🤖 **AI Processing**\n\nAnalyzing token data with AI..."

def apiErrorBlock (msg : String) : String :=
  "❌ **Error**\n\n" ++ msg ++
    "\n\n**Possible reasons:**\n- Invalid contract address\n- Token not found\n- API connectivity issue\n\nPlease verify and try again."

def processExcBlock (msg : String) : String :=
  "❌ **Error Processing Analysis**\n\n" ++ msg ++ "\n\nPlease try again."

def assistExcBlock (msg : String) : String :=
  "❌ **Error**\n\nAn unexpected error occurred: " ++ msg ++ "\n\nPlease try again."

/-- `str(e)` of the `AttributeError` raised by `value.get(...)` when the
cached JSON document is not a dict. -/
def attributeErrorMsg (v : Json) : String :=
  "\x27" ++ pyTypeName v ++ "\x27 object has no attribute \x27get\x27"

def greetingText : String :=
  "👋 **Hello! I\x27m Rug Pull Checker**\n\nI analyze Solana tokens to detect potential rug pulls and scams using SolSniffer API and AI.\n\n**What I Can Do:**\n• Analyze token contract addresses for rug pull risks\n• Check liquidity, holders, and ownership status\n• Detect mint/freeze authorities\n• Provide AI-powered risk assessment\n• Give clear verdicts: SAFE, MODERATE RISK, or HIGH RISK\n\n**How to Use:**\nSimply paste a Solana contract address (CA) and I\x27ll analyze it!\n\n**Examples:**\n• `Is this token safe? 7xKXtg2CW87d97TXJSDpbD5jBkheTqA83TZRuJosgAsU`\n• `Check this CA: DezXAZ8z7PnrnRJjz3wXBoRgixCa6xjnB7YaB1pPB263`\n• `[paste any Solana CA here]`\n\n**Ready to analyze!** Just paste a contract address. 🚀"

/-- Fallback text emitted by `_handle_normal_chat` when the LLM HTTP call
returns a non-200 status. -/
def chatFallbackHttp : String :=
  "I\x27m a Solana token rug pull analyzer! 🔍\n\nI specialize in detecting scams and risky tokens by analyzing:\n• **Mint & Freeze Authority** - Whether creators can mint unlimited tokens or freeze wallets\n• **Liquidity Locks** - If liquidity pools are burned or locked\n• **Holder Distribution** - How concentrated token ownership is\n• **On-chain Security** - Various red flags and green flags\n\n**To analyze a token:** Just paste its Solana contract address!\n\n**Example:** `DezXAZ8z7PnrnRJjz3wXBoRgixCa6xjnB7YaB1pPB263`\n\nGot questions about rug pulls or token safety? Feel free to ask!"

/-- Fallback text emitted by `_handle_normal_chat` when the LLM HTTP call
raises. -/
def chatFallbackExc : String :=
  "I\x27m here to help analyze Solana tokens for rug pull risks! 🔍\n\n**What I do:**\n- Detect mint/freeze authorities\n- Check liquidity locks and burns\n- Analyze holder distribution\n- Identify red flags and scams\n\n**How to use me:**\nSimply paste a Solana contract address and I\x27ll give you a detailed analysis!\n\n**Example:** `7xKXtg2CW87d97TXJSDpbD5jBkheTqA83TZRuJosgAsU`\n\nAsk me anything about rug pulls or token security!"

def GREETING_PATTERNS : List String :=
  ["who are you", "what can you do", "what are you", "hello", "hi there",
   "hey there", "help me", "about you"]

/-- `prompt.split()`: whitespace split, empty fields dropped; `acc` is the
word being scanned, in reverse. -/
def pySplitWsAux : List Char → List Char → List (List Char)
  | [], acc => if acc.isEmpty then [] else [acc.reverse]
  | c :: rest, acc =>
    if pySpace c then
      if acc.isEmpty then pySplitWsAux rest []
      else acc.reverse :: pySplitWsAux rest []
    else pySplitWsAux rest (c :: acc)

def pySplitWs (cs : List Char) : List (List Char) := pySplitWsAux cs []

/-- `RugPullAgent._is_greeting`: refuse to classify as a greeting when some
whitespace-separated word has length ≥ 32; otherwise case-insensitive
substring match against the greeting patterns. -/
def isGreeting (prompt : List Char) : Bool :=
  let hasLongWord := (pySplitWs prompt).any (fun w => 32 ≤ w.length)
  if hasLongWord then false
  else
    let lower := prompt.map Char.toLower
    GREETING_PATTERNS.any (fun pat => decide (pat.data <:+: lower))

/-- The fetch-and-advise part of `_process_token_analysis` (everything after
the cache lookup misses), appended to the steps `pre` produced so far. -/
def fetchPhase (env : AgentEnv) (fs : CacheFS Json) (ca : String) (pre : List Step) :
    List Step × CacheFS Json :=
  match analyzeToken env.fetchOutcome ca with
  | .error e =>
    -- the exception propagates out of `analyze_token` into this method's
    -- `except` handler
    (pre ++ [.fetchReport ca, .ev (.block "ERROR" (processExcBlock (pyExcMsg e))),
             .ev .done], fs)
  | .ok d =>
    if !truthy (.obj d) || hasKey d "error" then
      let errMsg := pyStr (dictGet d "message" (.str "Failed to analyze token"))
      (pre ++ [.fetchReport ca, .ev (.block "ERROR" (apiErrorBlock errMsg)),
               .ev .done], fs)
    else
      let ai := env.llmText
      if env.cacheEnabled then
        let cd : Json := .obj
          [("analysis_data", .obj d), ("ai_response", .str ai),
           ("contract_address", .str ca)]
        let fs2 := (CacheManager.set env.mgr fs env.now (cacheKeyFor ca) cd).2
        (pre ++ [Step.fetchReport ca, .ev (.block "STATUS" statusProcessing),
                 .advise ca, .ev (.block "AI_ANALYSIS" ai),
                 .cacheSet (cacheKeyFor ca) cd, .ev .done], fs2)
      else
        (pre ++ [Step.fetchReport ca, .ev (.block "STATUS" statusProcessing),
                 .advise ca, .ev (.block "AI_ANALYSIS" ai), .ev .done], fs)

/-- `RugPullAgent._process_token_analysis`. -/
def processTokenAnalysis (env : AgentEnv) (fs : CacheFS Json) (ca : String) :
    List Step × CacheFS Json :=
  if env.excAt = some .duringProcess then
    ([.ev (.block "ERROR" (processExcBlock env.excMsg)), .ev .done], fs)
  else
    let key := cacheKeyFor ca
    if env.cacheEnabled then
      let r := CacheManager.get env.mgr fs env.now key
      match r.1 with
      | some v =>
        if truthy v then
          match v with
          | .obj kvs =>
            ([Step.cacheGet key,
              .ev (.block "AI_ANALYSIS"
                (cachedMarker ++ pyStr (dictGet kvs "ai_response" (.str "")))),
              .ev .done], r.2)
          | _ =>
            -- `cached_result.get('ai_response', '')` on a non-dict raises
            -- `AttributeError`, caught by this method's `except` handler
            ([Step.cacheGet key,
              .ev (.block "ERROR" (processExcBlock (attributeErrorMsg v))),
              .ev .done], r.2)
        else
          fetchPhase env r.2 ca
            [Step.cacheGet key, .ev (.block "STATUS" (statusAnalyzing ca))]
      | none =>
        fetchPhase env r.2 ca
          [Step.cacheGet key, .ev (.block "STATUS" (statusAnalyzing ca))]
    else
      fetchPhase env fs ca [Step.ev (.block "STATUS" (statusAnalyzing ca))]

/-- `RugPullAgent._handle_normal_chat`: the inner `try` emits the LLM answer
on 200, a fixed fallback on a non-200 status, and another fixed fallback on
any exception; `complete` is called after the `try` on every path. -/
def normalChat (env : AgentEnv) (fs : CacheFS Json) : List Step × CacheFS Json :=
  let body :=
    match env.chatOutcome with
    | .ok content => [Step.ev (.block "CHAT_RESPONSE" content)]
    | .httpError _ _ => [Step.ev (.block "CHAT_RESPONSE" chatFallbackHttp)]
    | .exception _ => [Step.ev (.block "CHAT_RESPONSE" chatFallbackExc)]
  (body ++ [.ev .done], fs)

/-- `RugPullAgent.assist`: strip the prompt, extract an address and analyze
it; otherwise answer a greeting or fall through to normal chat.  Any
unexpected exception is caught by the outermost handler, which emits a
generic error block and completes. -/
def assist (env : AgentEnv) (fs : CacheFS Json) (prompt : String) :
    List Step × CacheFS Json :=
  if env.excAt = some .duringAssist then
    ([.ev (.block "ERROR" (assistExcBlock env.excMsg)), .ev .done], fs)
  else
    let p := pyStrip prompt.data
    match extract_contract_address p with
    | some ca => processTokenAnalysis env fs (String.mk ca)
    | none =>
      if isGreeting p then
        ([.ev (.block "GREETING" greetingText), .ev .done], fs)
      else normalChat env fs

/-- The externally visible events of a trace, in order. -/
def stepEvent : Step → Option Event
  | .ev e => some e
  | _ => none

def eventsOf (t : List Step) : List Event := t.filterMap stepEvent

/-! ### Concrete inputs used by witnesses and counterexamples -/

/-- A real 44-character base58 address (from the source's own self-test). -/
def demoAddr : List Char := "DezXAZ8z7PnrnRJjz3wXBoRgixCa6xjnB7YaB1pPB263".data

/-- A 32-character base58 string with 32 distinct characters. -/
def demoAddr32 : List Char := "123456789ABCDEFGHJKLMNPQRSTUVWXY".data

/-- A degenerate 40-character base58 string with a single distinct character. -/
def fortyAs : List Char := List.replicate 40 'a'

def demoAddrStr : String := "DezXAZ8z7PnrnRJjz3wXBoRgixCa6xjnB7YaB1pPB263"

/-- A concrete cache manager (identity storage mapping, 24-hour TTL, the
source default). -/
def demoMgr : CacheManager := CacheManager.init (fun s => s) 24

def demoKey : String := cacheKeyFor demoAddrStr

/-- A concrete persisted `AnalysisResult` as `_process_token_analysis` stores
it: risk report, advisory text and address. -/
def demoCachedObj : List (String × Json) :=
  [("analysis_data", .obj [("score", .num 80)]),
   ("ai_response", .str "SAFE"),
   ("contract_address", .str demoAddrStr)]

/-- A concrete response body from the scanning service. -/
def demoBody : List (String × Json) := [("tokenData", .str "x")]

/-- A concrete benign environment: cache on, scanning service answers 200
with `demoBody`, the LLM answers "ADVICE". -/
def demoEnv : AgentEnv :=
  { now := 0, cacheEnabled := true, mgr := demoMgr,
    fetchOutcome := .resp 200 (.ok demoBody),
    llmText := "ADVICE", chatOutcome := .ok "chat", excAt := none, excMsg := "" }

/-- The same environment with the scanning service answering 404. -/
def demoEnv404 : AgentEnv := { demoEnv with fetchOutcome := .resp 404 (.ok []) }

/-- A cache directory holding a fresh entry with the stored analysis. -/
def demoHitFS : CacheFS Json :=
  [(demoMgr.cachePath demoKey, .wellFormed (.obj demoCachedObj), 0)]

/-- A cache directory holding a fresh entry whose value is the falsy `{}`. -/
def demoFalsyFS : CacheFS Json :=
  [(demoMgr.cachePath demoKey, .wellFormed (.obj []), 0)]

/-! ### Helper lemmas about the parser -/

theorem b58_chars_not_space : ∀ c ∈ BASE58_ALPHABET, pySpace c = false := by decide

theorem b58_chars_not_sep : ∀ c ∈ BASE58_ALPHABET, isSepChar c = false := by decide

theorem mem_of_isB58 {c : Char} (h : isB58 c = true) : c ∈ BASE58_ALPHABET :=
  of_decide_eq_true h

theorem b58_not_space {c : Char} (h : isB58 c = true) : pySpace c = false :=
  b58_chars_not_space c (mem_of_isB58 h)

theorem b58_not_sep {c : Char} (h : isB58 c = true) : isSepChar c = false :=
  b58_chars_not_sep c (mem_of_isB58 h)

theorem dropWhile_eq_self_of (p : Char → Bool) (s : List Char)
    (h : ∀ c ∈ s, p c = false) : s.dropWhile p = s := by
  cases s with
  | nil => rfl
  | cons c cs => simp [List.dropWhile_cons, h c (by simp)]

theorem pyStrip_eq_self (s : List Char) (h : ∀ c ∈ s, pySpace c = false) :
    pyStrip s = s := by
  unfold pyStrip
  rw [dropWhile_eq_self_of _ _ h,
    dropWhile_eq_self_of _ _ (fun c hc => h c (by simpa using hc)),
    List.reverse_reverse]

theorem splitSeps_cons (c : Char) (rest : List Char) :
    splitSeps (c :: rest) =
      if isSepChar c then
        match rest with
        | [] => [[], []]
        | r :: _ => if isSepChar r then splitSeps rest else [] :: splitSeps rest
      else
        match splitSeps rest with
        | w :: ws => (c :: w) :: ws
        | [] => [[c]] := by
  conv_lhs => rw [splitSeps.eq_def]

theorem splitSeps_no_sep (s : List Char) (h : ∀ c ∈ s, isSepChar c = false) :
    splitSeps s = [s] := by
  induction s with
  | nil => rfl
  | cons c cs ih =>
    have hc : isSepChar c = false := h c (by simp)
    have ihh : splitSeps cs = [cs] := ih (fun x hx => h x (by simp [hx]))
    rw [splitSeps_cons, if_neg (by simp [hc]), ihh]

theorem is_valid_of (s : List Char) (h0 : s ≠ [])
    (h1 : MIN_LENGTH ≤ s.length) (h2 : s.length ≤ MAX_LENGTH)
    (h3 : s.all isB58 = true) : is_valid_solana_address s = true := by
  unfold is_valid_solana_address
  rw [if_neg h0, if_pos ⟨h1, h2⟩]
  exact h3

/-- The body of the first loop of `extract_contract_address` on a word list
whose single word is a valid address. -/
theorem extract_b58_self (s : List Char)
    (h1 : MIN_LENGTH ≤ s.length) (h2 : s.length ≤ MAX_LENGTH)
    (hall : ∀ c ∈ s, isB58 c = true) :
    extract_contract_address s = some s := by
  have hne : s ≠ [] := by
    intro e
    rw [e] at h1
    simp [MIN_LENGTH] at h1
  have hnospace : ∀ c ∈ s, pySpace c = false := fun c hc => b58_not_space (hall c hc)
  have hnosep : ∀ c ∈ s, isSepChar c = false := fun c hc => b58_not_sep (hall c hc)
  have hval : is_valid_solana_address s = true :=
    is_valid_of s hne h1 h2 (List.all_eq_true.mpr hall)
  unfold extract_contract_address
  rw [if_neg hne]
  simp only [pyStrip_eq_self s hnospace, splitSeps_no_sep s hnosep]
  unfold findWord
  simp only [pyStrip_eq_self s hnospace, if_pos (And.intro h1 h2), hval]
  simp

/-! ### C6 -/

/-- C6: for every string of length in [32,44] drawn only from the 58-symbol
alphabet with at least 10 distinct characters, `extract_contract_address`
returns the entire input unchanged. -/
theorem c6_extract_valid_identity (s : List Char)
    (h1 : 32 ≤ s.length) (h2 : s.length ≤ 44)
    (hall : ∀ c ∈ s, c ∈ BASE58_ALPHABET)
    (_hdiv : 10 ≤ s.dedup.length) :
    extract_contract_address s = some s :=
  extract_b58_self s h1 h2 (fun c hc => decide_eq_true (hall c hc))

/-- C6 witness: the theorem applied to a concrete 44-character address. -/
theorem c6_extract_valid_identity_witness :
    (32 ≤ demoAddr.length ∧ demoAddr.length ≤ 44 ∧
      (∀ c ∈ demoAddr, c ∈ BASE58_ALPHABET) ∧ 10 ≤ demoAddr.dedup.length) ∧
    extract_contract_address demoAddr = some demoAddr :=
  ⟨⟨by decide, by decide, by decide, by decide⟩,
    c6_extract_valid_identity demoAddr (by decide) (by decide) (by decide) (by decide)⟩

/-! ### C1 -/

/-- C1 counterexample: a single alphabet character repeated 40 times is a
length-valid, alphabet-valid string with one distinct symbol (fewer than 10),
yet `extract_contract_address` returns it rather than `none` — the code has
no diversity check. -/
theorem c1_diversity_counterexample :
    32 ≤ fortyAs.length ∧ fortyAs.length ≤ 44 ∧
    (∀ c ∈ fortyAs, c ∈ BASE58_ALPHABET) ∧ fortyAs.dedup.length < 10 ∧
    extract_contract_address fortyAs ≠ none := by decide

/-- C1 (amended): for every string whose length is in [32,44] and whose
characters are all drawn from the 58-symbol alphabet but which contains fewer
than 10 distinct symbols, `extract_contract_address` returns the string
itself; `is_valid_solana_address` checks only length and alphabet, so
degenerate repeated-character inputs are accepted, not rejected. -/
theorem c1_no_diversity_check (s : List Char)
    (h1 : 32 ≤ s.length) (h2 : s.length ≤ 44)
    (hall : ∀ c ∈ s, c ∈ BASE58_ALPHABET)
    (_hdiv : s.dedup.length < 10) :
    extract_contract_address s = some s :=
  extract_b58_self s h1 h2 (fun c hc => decide_eq_true (hall c hc))

/-- C1 witness: the amended theorem applied to the repeated-character input. -/
theorem c1_no_diversity_check_witness :
    (32 ≤ fortyAs.length ∧ fortyAs.length ≤ 44 ∧
      (∀ c ∈ fortyAs, c ∈ BASE58_ALPHABET) ∧ fortyAs.dedup.length < 10) ∧
    extract_contract_address fortyAs = some fortyAs :=
  ⟨⟨by decide, by decide, by decide, by decide⟩,
    c1_no_diversity_check fortyAs (by decide) (by decide) (by decide) (by decide)⟩

/-! ### Helper lemmas for texts made of two words -/

theorem base58RunsAux_all (a : List Char) (h : ∀ c ∈ a, isB58 c = true) :
    ∀ acc : List Char,
      base58RunsAux a acc =
        if (acc.reverse ++ a).isEmpty then [] else [acc.reverse ++ a] := by
  induction a with
  | nil => intro acc; simp [base58RunsAux]
  | cons c cs ih =>
    intro acc
    have hc := h c (by simp)
    simp only [base58RunsAux, hc, if_true]
    rw [ih (fun x hx => h x (by simp [hx])) (c :: acc)]
    simp

/-- A nonempty text consisting only of alphabet characters is one maximal run. -/
theorem base58Runs_of_all (a : List Char) (h : ∀ c ∈ a, isB58 c = true)
    (hne : a ≠ []) : base58Runs a = [a] := by
  unfold base58Runs
  rw [base58RunsAux_all a h []]
  simp [List.isEmpty_iff, hne]

theorem base58RunsAux_append (a1 rest : List Char) (x : Char)
    (h1 : ∀ c ∈ a1, isB58 c = true) (hx : isB58 x = false) :
    ∀ acc : List Char,
      base58RunsAux (a1 ++ x :: rest) acc =
        if (acc.reverse ++ a1).isEmpty then base58RunsAux rest []
        else (acc.reverse ++ a1) :: base58RunsAux rest [] := by
  induction a1 with
  | nil =>
    intro acc
    simp only [List.nil_append, base58RunsAux, hx]
    simp [List.isEmpty_iff]
  | cons c cs ih =>
    intro acc
    have hc := h1 c (by simp)
    simp only [List.cons_append, base58RunsAux, hc, if_true, List.append_eq]
    rw [ih (fun y hy => h1 y (by simp [hy])) (c :: acc)]
    simp

/-- Two maximal runs separated by one non-alphabet character. -/
theorem base58Runs_two (a1 a2 : List Char) (x : Char)
    (h1 : ∀ c ∈ a1, isB58 c = true) (hx : isB58 x = false)
    (h2 : ∀ c ∈ a2, isB58 c = true) (hne1 : a1 ≠ []) (hne2 : a2 ≠ []) :
    base58Runs (a1 ++ x :: a2) = [a1, a2] := by
  unfold base58Runs
  rw [base58RunsAux_append a1 a2 x h1 hx []]
  rw [if_neg (by simp [List.isEmpty_iff, hne1])]
  have h2' := base58Runs_of_all a2 h2 hne2
  unfold base58Runs at h2'
  rw [h2']
  simp

theorem chunkRunF_nil (fuel : Nat) : chunkRunF fuel [] = [] := by
  cases fuel with
  | zero => rfl
  | succ n => simp [chunkRunF, MIN_LENGTH]

/-- A run whose length is already within [32,44] is matched whole. -/
theorem chunkRun_of_bounds (r : List Char) (h1 : MIN_LENGTH ≤ r.length)
    (h2 : r.length ≤ MAX_LENGTH) : chunkRun r = [r] := by
  have h1' : 32 ≤ r.length := h1
  unfold chunkRun
  obtain ⟨n, hn⟩ : ∃ n, r.length = n + 1 := ⟨r.length - 1, by omega⟩
  rw [hn]
  simp only [chunkRunF]
  rw [hn, if_neg (by simp only [MIN_LENGTH]; omega),
    List.take_of_length_le h2, List.drop_eq_nil_of_le h2, chunkRunF_nil]

theorem findallB58_two (a1 a2 : List Char) (x : Char)
    (h1 : ∀ c ∈ a1, isB58 c = true) (hx : isB58 x = false)
    (h2 : ∀ c ∈ a2, isB58 c = true)
    (hl1 : MIN_LENGTH ≤ a1.length) (hl1u : a1.length ≤ MAX_LENGTH)
    (hl2 : MIN_LENGTH ≤ a2.length) (hl2u : a2.length ≤ MAX_LENGTH) :
    findallB58 (a1 ++ x :: a2) = [a1, a2] := by
  have hne1 : a1 ≠ [] := by
    intro e; rw [e] at hl1; simp [MIN_LENGTH] at hl1
  have hne2 : a2 ≠ [] := by
    intro e; rw [e] at hl2; simp [MIN_LENGTH] at hl2
  unfold findallB58
  rw [base58Runs_two a1 a2 x h1 hx h2 hne1 hne2]
  simp [chunkRun_of_bounds a1 hl1 hl1u, chunkRun_of_bounds a2 hl2 hl2u]

/-- Splitting a text of the form `word ++ sep ++ word`. -/
theorem splitSeps_sep_head (x : Char) (a2 : List Char) (hx : isSepChar x = true)
    (h2 : ∀ c ∈ a2, isSepChar c = false) (hne : a2 ≠ []) :
    splitSeps (x :: a2) = [[], a2] := by
  cases a2 with
  | nil => exact absurd rfl hne
  | cons d ds =>
    rw [splitSeps_cons, if_pos hx]
    simp only [h2 d (by simp), if_neg (by simp : ¬(false = true)),
      splitSeps_no_sep (d :: ds) h2]

theorem splitSeps_word_append (a1 a2 : List Char) (x : Char)
    (h1 : ∀ c ∈ a1, isSepChar c = false) (hx : isSepChar x = true)
    (h2 : ∀ c ∈ a2, isSepChar c = false) (hne2 : a2 ≠ []) :
    splitSeps (a1 ++ x :: a2) = if a1 = [] then [[], a2] else [a1, a2] := by
  induction a1 with
  | nil =>
    simp only [List.nil_append, if_pos rfl]
    exact splitSeps_sep_head x a2 hx h2 hne2
  | cons c cs ih =>
    have hc : isSepChar c = false := h1 c (by simp)
    have ihh := ih (fun y hy => h1 y (by simp [hy]))
    rw [List.cons_append, splitSeps_cons, if_neg (by simp [hc]), ihh]
    by_cases hcs : cs = []
    · subst hcs
      simp
    · rw [if_neg hcs, if_neg (by simp)]

/-- The regex pass appends nothing when every match is already present. -/
theorem regexPass_skip (ms : List (List Char)) (addresses : List (List Char))
    (h : ∀ m ∈ ms, m ∈ addresses) : regexPass ms addresses = addresses := by
  induction ms with
  | nil => rfl
  | cons m ms ih =>
    have hm : addresses.contains m = true := by simp [h m (by simp)]
    have hcond : (is_valid_solana_address m && !(addresses.contains m)) = false := by
      rw [hm]; simp
    simp only [regexPass, hcond, Bool.false_eq_true, if_false]
    exact ih (fun y hy => h y (by simp [hy]))

/-! ### C5 -/

/-- C5 counterexample: on a text in which the same valid address occurs twice
as two whitespace-separated words, `extract_all_addresses` returns that
address twice — the word pass appends without deduplication, so the result
does not have set semantics. -/
theorem c5_duplicates_counterexample :
    extract_all_addresses (demoAddr32 ++ ' ' :: demoAddr32) =
      [demoAddr32, demoAddr32] ∧
    2 ≤ (extract_all_addresses (demoAddr32 ++ ' ' :: demoAddr32)).count demoAddr32 := by
  decide

/-- C5 (amended): `extract_all_addresses` returns a list in order of
appearance, not a set: the word pass retains duplicates (the same address
occurring twice as separate words appears twice), and only regex-pass matches
are deduplicated against the addresses already found.  On a text consisting
of two distinct valid addresses separated by whitespace it returns exactly
those two, each once. -/
theorem c5_two_distinct_addresses (a1 a2 : List Char)
    (h1l : 32 ≤ a1.length) (h1u : a1.length ≤ 44)
    (h1a : ∀ c ∈ a1, c ∈ BASE58_ALPHABET)
    (h2l : 32 ≤ a2.length) (h2u : a2.length ≤ 44)
    (h2a : ∀ c ∈ a2, c ∈ BASE58_ALPHABET)
    (_hne : a1 ≠ a2) :
    extract_all_addresses (a1 ++ ' ' :: a2) = [a1, a2] := by
  have hb1 : ∀ c ∈ a1, isB58 c = true := fun c hc => decide_eq_true (h1a c hc)
  have hb2 : ∀ c ∈ a2, isB58 c = true := fun c hc => decide_eq_true (h2a c hc)
  have hne1 : a1 ≠ [] := by
    intro e; rw [e] at h1l; simp at h1l
  have hne2 : a2 ≠ [] := by
    intro e; rw [e] at h2l; simp at h2l
  have hnosep1 : ∀ c ∈ a1, isSepChar c = false := fun c hc => b58_not_sep (hb1 c hc)
  have hnosep2 : ∀ c ∈ a2, isSepChar c = false := fun c hc => b58_not_sep (hb2 c hc)
  have hnosp1 : ∀ c ∈ a1, pySpace c = false := fun c hc => b58_not_space (hb1 c hc)
  have hnosp2 : ∀ c ∈ a2, pySpace c = false := fun c hc => b58_not_space (hb2 c hc)
  have hval1 : is_valid_solana_address a1 = true :=
    is_valid_of a1 hne1 h1l h1u (List.all_eq_true.mpr hb1)
  have hval2 : is_valid_solana_address a2 = true :=
    is_valid_of a2 hne2 h2l h2u (List.all_eq_true.mpr hb2)
  have htext : a1 ++ ' ' :: a2 ≠ [] := by simp
  have hwp : wordPass [a1, a2] [] = [a1, a2] := by
    simp only [wordPass, pyStrip_eq_self a1 hnosp1, pyStrip_eq_self a2 hnosp2,
      hval1, hval2, if_true, List.nil_append]
    simp
  unfold extract_all_addresses
  rw [if_neg htext,
    splitSeps_word_append a1 a2 ' ' hnosep1 (by decide) hnosep2 hne2,
    if_neg hne1,
    findallB58_two a1 a2 ' ' hb1 (by decide) hb2 h1l h1u h2l h2u, hwp]
  exact regexPass_skip [a1, a2] [a1, a2] (fun m hm => hm)

/-- C5 witness: the amended theorem applied to two concrete distinct
addresses. -/
theorem c5_two_distinct_addresses_witness :
    (32 ≤ demoAddr32.length ∧ demoAddr32.length ≤ 44 ∧
      (∀ c ∈ demoAddr32, c ∈ BASE58_ALPHABET) ∧
      32 ≤ demoAddr.length ∧ demoAddr.length ≤ 44 ∧
      (∀ c ∈ demoAddr, c ∈ BASE58_ALPHABET) ∧ demoAddr32 ≠ demoAddr) ∧
    extract_all_addresses (demoAddr32 ++ ' ' :: demoAddr) = [demoAddr32, demoAddr] :=
  ⟨⟨by decide, by decide, by decide, by decide, by decide, by decide, by decide⟩,
    c5_two_distinct_addresses demoAddr32 demoAddr (by decide) (by decide)
      (by decide) (by decide) (by decide) (by decide) (by decide)⟩

/-! ### Helper lemmas about the cache -/

theorem fsLookup_fsErase_self {α : Type} (fs : CacheFS α) (p : String) :
    fsLookup (fsErase fs p) p = none := by
  induction fs with
  | nil => rfl
  | cons e rest ih =>
    obtain ⟨q, b, t⟩ := e
    by_cases hq : q = p
    · subst hq
      simpa [fsErase, List.filter_cons] using ih
    · simp only [fsErase, List.filter_cons]
      rw [if_pos (by simp [hq])]
      simp only [fsLookup, if_neg hq]
      simpa [fsErase] using ih

/-! ### C2 -/

/-- C2: a `get` that finds an entry whose age strictly exceeds the TTL
returns absent and deletes the entry, whatever the entry's content is — in
particular no parse of the content is attempted (the result is the same for
a well-formed and for a corrupt blob). -/
theorem c2_expired_get_deletes {α : Type} (m : CacheManager) (fs : CacheFS α)
    (now mtime : Int) (key : String) (blob : JsonBlob α)
    (hlook : fsLookup fs (m.cachePath key) = some (blob, mtime))
    (hexp : now - mtime > m.ttl_seconds) :
    (CacheManager.get m fs now key).1 = none ∧
    fsLookup (CacheManager.get m fs now key).2 (m.cachePath key) = none := by
  have hget : CacheManager.get m fs now key = (none, fsErase fs (m.cachePath key)) := by
    unfold CacheManager.get
    simp only [hlook]
    rw [if_pos hexp]
  rw [hget]
  exact ⟨rfl, fsLookup_fsErase_self fs (m.cachePath key)⟩

/-- C2 witness: a concrete expired (and even corrupt) entry is deleted and
reported absent. -/
theorem c2_expired_get_deletes_witness :
    (fsLookup ([("k.json", (JsonBlob.corrupt : JsonBlob Nat), 0)] : CacheFS Nat)
        ((CacheManager.mk (fun s => s) 10).cachePath "k") = some (JsonBlob.corrupt, 0) ∧
      (11 : Int) - 0 > (CacheManager.mk (fun s => s) 10).ttl_seconds) ∧
    (CacheManager.get (CacheManager.mk (fun s => s) 10)
        ([("k.json", JsonBlob.corrupt, 0)] : CacheFS Nat) 11 "k").1 = none ∧
    fsLookup (CacheManager.get (CacheManager.mk (fun s => s) 10)
        ([("k.json", JsonBlob.corrupt, 0)] : CacheFS Nat) 11 "k").2
      ((CacheManager.mk (fun s => s) 10).cachePath "k") = none :=
  ⟨⟨rfl, by decide⟩,
    c2_expired_get_deletes (CacheManager.mk (fun s => s) 10)
      [("k.json", JsonBlob.corrupt, 0)] 11 0 "k" JsonBlob.corrupt rfl (by decide)⟩

/-! ### C7 -/

/-- C7: cache round trip — `set(k, v)` followed immediately (same clock
reading, hence no intervening expiry, the TTL being non-negative) by
`get(k)` returns `v`. -/
theorem c7_cache_round_trip {α : Type} (m : CacheManager) (fs : CacheFS α)
    (t : Int) (key : String) (v : α) (httl : 0 ≤ m.ttl_seconds) :
    (CacheManager.get m (CacheManager.set m fs t key v).2 t key).1 = some v := by
  unfold CacheManager.get CacheManager.set fsWrite
  simp only [fsLookup, if_true]
  rw [if_neg (by omega)]
  rfl

/-- C7 witness: a concrete round trip through an empty cache directory. -/
theorem c7_cache_round_trip_witness :
    0 ≤ (CacheManager.init (fun s => s) 168).ttl_seconds ∧
    (CacheManager.get (CacheManager.init (fun s => s) 168)
        (CacheManager.set (CacheManager.init (fun s => s) 168)
          ([] : CacheFS Nat) 0 "token_analysis_k" 42).2
        0 "token_analysis_k").1 = some 42 :=
  ⟨by decide,
    c7_cache_round_trip (CacheManager.init (fun s => s) 168) [] 0
      "token_analysis_k" 42 (by decide)⟩

/-! ### C8 -/

/-- C8 (code bug): when the outbound call raises `asyncio.TimeoutError`
(the configured total timeout elapsed), `analyze_token` does *not* return the
`Timeout`-classified dict its handler body builds; instead the broken clause
`except aiohttp.ClientTimeout` (a configuration class, not an exception
class) makes the interpreter raise `TypeError`, which propagates out of
`analyze_token` — for every address. -/
theorem c8_timeout_not_classified (ca : String) :
    analyzeToken FetchOutcome.timeoutError ca = Except.error PyExc.typeError ∧
    analyzeToken FetchOutcome.timeoutError ca ≠ Except.ok (timeoutDict ca) := by
  exact ⟨rfl, by simp [analyzeToken]⟩

/-! ### Helper lemmas about the agent trace -/

/-- An event list that ends in the completion signal and contains it exactly
once. -/
def endsWithOneDone (evs : List Event) : Prop :=
  ∃ mid, evs = mid ++ [Event.done] ∧ Event.done ∉ mid

theorem eventsOf_append (a b : List Step) :
    eventsOf (a ++ b) = eventsOf a ++ eventsOf b := by
  simp [eventsOf, List.filterMap_append]

theorem endsWithOneDone_preprend (pre evs : List Event)
    (hpre : Event.done ∉ pre) (h : endsWithOneDone evs) :
    endsWithOneDone (pre ++ evs) := by
  obtain ⟨mid, hmid, hnot⟩ := h
  exact ⟨pre ++ mid, by rw [hmid, List.append_assoc], by simp [hpre, hnot]⟩

theorem ewod_singleton : endsWithOneDone [Event.done] :=
  ⟨[], rfl, by simp⟩

theorem ewod_block (n c : String) (evs : List Event) (h : endsWithOneDone evs) :
    endsWithOneDone (Event.block n c :: evs) := by
  obtain ⟨mid, hmid, hnot⟩ := h
  exact ⟨Event.block n c :: mid, by rw [hmid]; rfl, by simp [hnot]⟩

/-- Every branch of the fetch-and-advise phase appends a tail that completes
exactly once, at the end. -/
theorem fetchPhase_done_once (env : AgentEnv) (fs : CacheFS Json) (ca : String)
    (pre : List Step) :
    ∃ tl fsOut, fetchPhase env fs ca pre = (pre ++ tl, fsOut) ∧
      endsWithOneDone (eventsOf tl) := by
  simp only [fetchPhase]
  split
  · refine ⟨_, _, rfl, ?_⟩
    simp only [eventsOf, List.filterMap_cons, List.filterMap_nil, stepEvent]
    exact ewod_block _ _ _ ewod_singleton
  · split
    · refine ⟨_, _, rfl, ?_⟩
      simp only [eventsOf, List.filterMap_cons, List.filterMap_nil, stepEvent]
      exact ewod_block _ _ _ ewod_singleton
    · split
      · refine ⟨_, _, rfl, ?_⟩
        simp only [eventsOf, List.filterMap_cons, List.filterMap_nil, stepEvent]
        exact ewod_block _ _ _ (ewod_block _ _ _ ewod_singleton)
      · refine ⟨_, _, rfl, ?_⟩
        simp only [eventsOf, List.filterMap_cons, List.filterMap_nil, stepEvent]
        exact ewod_block _ _ _ (ewod_block _ _ _ ewod_singleton)

/-- Every branch of `_process_token_analysis` completes exactly once, at the
end. -/
theorem process_done_once (env : AgentEnv) (fs : CacheFS Json) (ca : String) :
    endsWithOneDone (eventsOf (processTokenAnalysis env fs ca).1) := by
  simp only [processTokenAnalysis]
  split
  · simp only [eventsOf, List.filterMap_cons, List.filterMap_nil, stepEvent]
    exact ewod_block _ _ _ ewod_singleton
  · split
    · -- cache enabled: look at the lookup result and the cached value
      split
      · split
        · split
          · simp only [eventsOf, List.filterMap_cons, List.filterMap_nil, stepEvent]
            exact ewod_block _ _ _ ewod_singleton
          · simp only [eventsOf, List.filterMap_cons, List.filterMap_nil, stepEvent]
            exact ewod_block _ _ _ ewod_singleton
        · obtain ⟨tl, fsOut, heq, hone⟩ := fetchPhase_done_once env _ ca _
          rw [heq, eventsOf_append]
          refine endsWithOneDone_preprend _ _ ?_ hone
          simp [eventsOf, stepEvent]
      · obtain ⟨tl, fsOut, heq, hone⟩ := fetchPhase_done_once env _ ca _
        rw [heq, eventsOf_append]
        refine endsWithOneDone_preprend _ _ ?_ hone
        simp [eventsOf, stepEvent]
    · obtain ⟨tl, fsOut, heq, hone⟩ := fetchPhase_done_once env _ ca _
      rw [heq, eventsOf_append]
      refine endsWithOneDone_preprend _ _ ?_ hone
      simp [eventsOf, stepEvent]

theorem normalChat_done_once (env : AgentEnv) (fs : CacheFS Json) :
    endsWithOneDone (eventsOf (normalChat env fs).1) := by
  simp only [normalChat]
  cases env.chatOutcome <;>
    · simp only [eventsOf, List.cons_append, List.nil_append,
        List.filterMap_cons, List.filterMap_nil, stepEvent]
      exact ewod_block _ _ _ ewod_singleton

theorem assist_done_once (env : AgentEnv) (fs : CacheFS Json) (prompt : String) :
    endsWithOneDone (eventsOf (assist env fs prompt).1) := by
  simp only [assist]
  split
  · simp only [eventsOf, List.filterMap_cons, List.filterMap_nil, stepEvent]
    exact ewod_block _ _ _ ewod_singleton
  · split
    · exact process_done_once env fs _
    · split
      · simp only [eventsOf, List.filterMap_cons, List.filterMap_nil, stepEvent]
        exact ewod_block _ _ _ ewod_singleton
      · exact normalChat_done_once env fs

/-! ### C3 -/

/-- C3: for every environment (every cache state, every outcome of the two
outbound calls including injected unexpected exceptions) and every prompt,
the event sequence emitted by `assist` ends with the completion signal and
contains it exactly once. -/
theorem c3_assist_completes_once (env : AgentEnv) (fs : CacheFS Json)
    (prompt : String) :
    (eventsOf (assist env fs prompt).1).getLast? = some Event.done ∧
    (eventsOf (assist env fs prompt).1).count Event.done = 1 := by
  obtain ⟨mid, hmid, hnot⟩ := assist_done_once env fs prompt
  rw [hmid]
  constructor
  · exact List.getLast?_concat _
  · rw [List.count_append, List.count_eq_zero_of_not_mem hnot]
    simp

/-! ### C4 -/

/-- A fresh, well-formed cache lookup succeeds and leaves the directory
unchanged. -/
theorem cache_get_fresh (m : CacheManager) (fs : CacheFS Json) (key : String)
    (now mtime : Int) (v : Json)
    (hlook : fsLookup fs (m.cachePath key) = some (JsonBlob.wellFormed v, mtime))
    (hfresh : now - mtime ≤ m.ttl_seconds) :
    CacheManager.get m fs now key = (some v, fs) := by
  unfold CacheManager.get
  simp only [hlook]
  rw [if_neg (by omega)]
  rfl

/-- C4 counterexample: with the `AnalysisResult`
`demoCachedObj = analysis_data + ai_response "SAFE" + contract_address`
stored for the address, the cache-hit block is the cached-analysis marker
followed by "SAFE" — it equals neither the stored object nor even the bare
stored advisory text, so the stored object is not replayed verbatim. -/
theorem c4_verbatim_counterexample :
    (processTokenAnalysis demoEnv demoHitFS demoAddrStr).1 =
      [Step.cacheGet demoKey,
       .ev (.block "AI_ANALYSIS" ("✨ **[Cached Analysis]**\n\nSAFE")),
       .ev .done] ∧
    "✨ **[Cached Analysis]**\n\nSAFE" ≠ pyStr (Json.obj demoCachedObj) ∧
    "✨ **[Cached Analysis]**\n\nSAFE" ≠ "SAFE" :=
  ⟨rfl, by decide, by decide⟩

/-- C4 (amended): on a cache hit (unexpired entry whose value is a truthy
dict), the orchestrator emits exactly one content block consisting of the
fixed cached-analysis marker followed by the `ai_response` field of the
stored object (empty if missing), then completes; the rest of the stored
`AnalysisResult` (risk report, address) is not re-emitted, and the cache is
unchanged. -/
theorem c4_cache_hit_replays_advisory (env : AgentEnv) (fs : CacheFS Json)
    (ca : String) (kvs : List (String × Json)) (mtime : Int)
    (hexc : env.excAt = none) (hc : env.cacheEnabled = true)
    (hlook : fsLookup fs (env.mgr.cachePath (cacheKeyFor ca)) =
      some (JsonBlob.wellFormed (Json.obj kvs), mtime))
    (hfresh : env.now - mtime ≤ env.mgr.ttl_seconds)
    (htr : kvs ≠ []) :
    processTokenAnalysis env fs ca =
      ([Step.cacheGet (cacheKeyFor ca),
        .ev (.block "AI_ANALYSIS"
          (cachedMarker ++ pyStr (dictGet kvs "ai_response" (.str "")))),
        .ev .done], fs) := by
  have hget := cache_get_fresh env.mgr fs (cacheKeyFor ca) env.now mtime
    (Json.obj kvs) hlook hfresh
  simp only [processTokenAnalysis, hexc, hc, hget]
  simp [truthy, List.isEmpty_iff, htr]

/-- C4 witness: the amended theorem applied to the concrete stored
`AnalysisResult`. -/
theorem c4_cache_hit_replays_advisory_witness :
    (demoEnv.excAt = none ∧ demoEnv.cacheEnabled = true ∧
      fsLookup demoHitFS (demoEnv.mgr.cachePath (cacheKeyFor demoAddrStr)) =
        some (JsonBlob.wellFormed (Json.obj demoCachedObj), 0) ∧
      demoEnv.now - 0 ≤ demoEnv.mgr.ttl_seconds ∧ demoCachedObj ≠ []) ∧
    processTokenAnalysis demoEnv demoHitFS demoAddrStr =
      ([Step.cacheGet (cacheKeyFor demoAddrStr),
        .ev (.block "AI_ANALYSIS"
          (cachedMarker ++ pyStr (dictGet demoCachedObj "ai_response" (.str "")))),
        .ev .done], demoHitFS) :=
  ⟨⟨rfl, rfl, rfl, by decide, by simp [demoCachedObj]⟩,
    c4_cache_hit_replays_advisory demoEnv demoHitFS demoAddrStr demoCachedObj 0
      rfl rfl rfl (by decide) (by simp [demoCachedObj])⟩

/-! ### C9 -/

/-- C9: for an address with no cache entry, a 404 from the scanning service
makes the pipeline emit a status block, then an error block naming the
not-found reason, then the completion signal; the advisory gateway is never
called, nothing is written to the cache, and the cache directory afterwards
equals the one before. -/
theorem c9_not_found_terminal (env : AgentEnv) (fs : CacheFS Json) (ca : String)
    (body : Except String (List (String × Json)))
    (hexc : env.excAt = none) (hc : env.cacheEnabled = true)
    (hmiss : fsLookup fs (env.mgr.cachePath (cacheKeyFor ca)) = none)
    (hfetch : env.fetchOutcome = .resp 404 body) :
    processTokenAnalysis env fs ca =
      ([Step.cacheGet (cacheKeyFor ca),
        .ev (.block "STATUS" (statusAnalyzing ca)),
        .fetchReport ca,
        .ev (.block "ERROR" (apiErrorBlock
          "This contract address was not found. Please verify the address is correct.")),
        .ev .done], fs) ∧
    (∀ a, Step.advise a ∉ (processTokenAnalysis env fs ca).1) ∧
    (∀ k v, Step.cacheSet k v ∉ (processTokenAnalysis env fs ca).1) := by
  have hget : CacheManager.get env.mgr fs env.now (cacheKeyFor ca) = (none, fs) := by
    unfold CacheManager.get
    simp only [hmiss]
  have htrace : processTokenAnalysis env fs ca =
      ([Step.cacheGet (cacheKeyFor ca),
        .ev (.block "STATUS" (statusAnalyzing ca)),
        .fetchReport ca,
        .ev (.block "ERROR" (apiErrorBlock
          "This contract address was not found. Please verify the address is correct.")),
        .ev .done], fs) := by
    simp only [processTokenAnalysis, hexc, hc, hget, fetchPhase, hfetch, analyzeToken]
    norm_num
    rfl
  refine ⟨htrace, ?_, ?_⟩
  · intro a
    rw [htrace]
    simp
  · intro k v
    rw [htrace]
    simp

/-- C9 witness: the theorem applied to the concrete 404 environment and an
empty cache directory. -/
theorem c9_not_found_terminal_witness :
    (demoEnv404.excAt = none ∧ demoEnv404.cacheEnabled = true ∧
      fsLookup ([] : CacheFS Json)
        (demoEnv404.mgr.cachePath (cacheKeyFor demoAddrStr)) = none ∧
      demoEnv404.fetchOutcome = .resp 404 (.ok [])) ∧
    processTokenAnalysis demoEnv404 [] demoAddrStr =
      ([Step.cacheGet (cacheKeyFor demoAddrStr),
        .ev (.block "STATUS" (statusAnalyzing demoAddrStr)),
        .fetchReport demoAddrStr,
        .ev (.block "ERROR" (apiErrorBlock
          "This contract address was not found. Please verify the address is correct.")),
        .ev .done], ([] : CacheFS Json)) :=
  ⟨⟨rfl, rfl, rfl, rfl⟩,
    (c9_not_found_terminal demoEnv404 [] demoAddrStr (.ok [])
      rfl rfl rfl rfl).1⟩

/-! ### C10 -/

/-- C10: when the cached entry for the address holds a falsy value (such as
the empty JSON object) and its TTL has not expired, the orchestrator treats
the lookup as a miss: it proceeds through the full fresh pipeline, calling
the scanning gateway and the advisory gateway, and overwrites the cache,
even though the entry existed. -/
theorem c10_falsy_cache_is_miss (env : AgentEnv) (fs : CacheFS Json)
    (ca : String) (v : Json) (mtime : Int) (d : List (String × Json))
    (hexc : env.excAt = none) (hc : env.cacheEnabled = true)
    (hlook : fsLookup fs (env.mgr.cachePath (cacheKeyFor ca)) =
      some (JsonBlob.wellFormed v, mtime))
    (hfresh : env.now - mtime ≤ env.mgr.ttl_seconds)
    (hfalsy : truthy v = false)
    (hfetch : env.fetchOutcome = .resp 200 (.ok d))
    (hne : d ≠ []) (herr : hasKey d "error" = false) :
    processTokenAnalysis env fs ca =
      ([Step.cacheGet (cacheKeyFor ca),
        .ev (.block "STATUS" (statusAnalyzing ca)),
        .fetchReport ca,
        .ev (.block "STATUS" statusProcessing),
        .advise ca,
        .ev (.block "AI_ANALYSIS" env.llmText),
        .cacheSet (cacheKeyFor ca)
          (.obj [("analysis_data", .obj d), ("ai_response", .str env.llmText),
                 ("contract_address", .str ca)]),
        .ev .done],
       (CacheManager.set env.mgr fs env.now (cacheKeyFor ca)
         (.obj [("analysis_data", .obj d), ("ai_response", .str env.llmText),
                ("contract_address", .str ca)])).2) := by
  have hget := cache_get_fresh env.mgr fs (cacheKeyFor ca) env.now mtime v hlook hfresh
  simp only [processTokenAnalysis, hexc, hc, hget, hfalsy, fetchPhase, hfetch,
    analyzeToken]
  simp [truthy, List.isEmpty_iff, hne, herr, hfalsy]

/-- C10 witness: the theorem applied to a cache directory holding a fresh
empty-dict entry, with the scanning service answering 200. -/
theorem c10_falsy_cache_is_miss_witness :
    (demoEnv.excAt = none ∧ demoEnv.cacheEnabled = true ∧
      fsLookup demoFalsyFS (demoEnv.mgr.cachePath (cacheKeyFor demoAddrStr)) =
        some (JsonBlob.wellFormed (Json.obj []), 0) ∧
      demoEnv.now - 0 ≤ demoEnv.mgr.ttl_seconds ∧
      truthy (Json.obj []) = false ∧
      demoEnv.fetchOutcome = .resp 200 (.ok demoBody) ∧
      demoBody ≠ [] ∧ hasKey demoBody "error" = false) ∧
    processTokenAnalysis demoEnv demoFalsyFS demoAddrStr =
      ([Step.cacheGet (cacheKeyFor demoAddrStr),
        .ev (.block "STATUS" (statusAnalyzing demoAddrStr)),
        .fetchReport demoAddrStr,
        .ev (.block "STATUS" statusProcessing),
        .advise demoAddrStr,
        .ev (.block "AI_ANALYSIS" demoEnv.llmText),
        .cacheSet (cacheKeyFor demoAddrStr)
          (.obj [("analysis_data", .obj demoBody),
                 ("ai_response", .str demoEnv.llmText),
                 ("contract_address", .str demoAddrStr)]),
        .ev .done],
       (CacheManager.set demoEnv.mgr demoFalsyFS demoEnv.now
         (cacheKeyFor demoAddrStr)
         (.obj [("analysis_data", .obj demoBody),
                ("ai_response", .str demoEnv.llmText),
                ("contract_address", .str demoAddrStr)])).2) :=
  ⟨⟨rfl, rfl, rfl, by decide, rfl, rfl, by simp [demoBody], rfl⟩,
    c10_falsy_cache_is_miss demoEnv demoFalsyFS demoAddrStr (Json.obj []) 0 demoBody
      rfl rfl rfl (by decide) rfl rfl (by simp [demoBody]) rfl⟩

end RugPull
